import Mathlib

/-!
Verification development for the workspace synchronization engine in
`src/rosinstall/multiproject_cmd.py`.

Strings of the Python program are embedded as Lean `String` (for names and
paths, compared with `==` as Python compares with `==`) and as `List Char`
for status texts that are traversed character by character.  Python
exceptions of the module's declared error protocol (`MultiProjectException`)
become an explicit `Except` error channel.  Filesystem and console side
effects of `cmd_install_or_update` are recorded in an explicit `Effect`
trace so that temporal claims about them can be stated.
-/

namespace Rosinstall

/-- Embeds the `MultiProjectException` error class: only its message is
observable in this module (`"%s" % ex` renders the message). -/
structure MultiProjectException where
  msg : String
deriving Repr, DecidableEq

/-- The interface of `report.config_element` that `cmd_install_or_update`
uses downstream of the prepare phase: `get_local_name()` (for the skip
message) and `install(checkout, backup, backup_path)` (in `Installer`).
The install behaviour is a function returning unit or raising. -/
structure InstallTarget where
  local_name : String
  install : Bool → Bool → Option String → Except MultiProjectException Unit

/-- Embeds the `PreparationReport` object as consumed by
`cmd_install_or_update`: fields `config_element`, `checkout`, `backup`,
`backup_path`, `abort`, `skip`, `error`. -/
structure PreparationReport where
  config_element : InstallTarget
  checkout : Bool
  backup : Bool
  backup_path : Option String
  abort : Bool
  skip : Bool
  error : String

/-- Embeds a `ConfigElement` as consumed by this module: identity
(`get_local_name`, `get_path`), the `is_vcs_element()` capability test,
`get_path_spec().get_scmtype()`, and the behavioural methods
`get_status`, `get_diff` and `prepare_install` supplied externally. -/
structure ConfigElement where
  local_name : String
  path : String
  is_vcs_element : Bool
  scmtype : Option String
  get_status : String → Bool → Option (List Char)
  get_diff : String → Option (List Char)
  prepare_install : Option String → String → Bool → Except MultiProjectException (Option PreparationReport)

/-- Embeds the `Config` object as consumed by this module:
`get_base_path()` and `get_config_elements()`. -/
structure Config where
  base_path : String
  elements : List ConfigElement

/-- A POSIX path is absolute when it starts with a slash.  Modelled from
Python `os.path` semantics. -/
def is_absolute (p : String) : Bool := p.data.head? == some '/'

/-- True when the path ends with a slash. -/
def ends_with_slash (a : String) : Bool := a.data.getLast? == some '/'

/-- Modelled from Python `os.path.join` restricted to two POSIX
components: an absolute second component discards the first, otherwise the
components are joined with a separating slash. -/
def os_path_join (a b : String) : String :=
  if is_absolute b then b
  else if a == "" || ends_with_slash a then a ++ b
  else a ++ "/" ++ b

/-- Modelled from Python `os.path.realpath` restricted to symlink-free,
already-normalized paths: an absolute path is returned unchanged, a
relative path is resolved against the current working directory `cwd` of
the process at call time. -/
def os_path_realpath (cwd : String) (p : String) : String :=
  if is_absolute p then p else os_path_join cwd p

/-- The scanning loop of `_select_element`: walks the elements in order,
returning immediately on a `localname` match (the `break`), and otherwise
remembering the most recent element whose resolved real path equals the
query's resolved real path in the candidate accumulator. -/
def select_loop (cwd : String) (localname : String) (realpath : String) :
    List ConfigElement → Option ConfigElement → Option ConfigElement
  | [], cand => cand
  | e :: es, cand =>
    if localname == e.local_name then some e
    else if realpath == os_path_realpath cwd e.path then
      select_loop cwd localname realpath es (some e)
    else
      select_loop cwd localname realpath es cand

/-- Embeds `_select_element(elements, localname)`.  The extra `cwd`
argument makes the ambient current working directory used by
`os.path.realpath` explicit.  A `none` query returns the `none` sentinel
(no narrowing); a query matching nothing raises. -/
def _select_element (cwd : String) (elements : List ConfigElement)
    (localname : Option String) : Except MultiProjectException (Option ConfigElement) :=
  match localname with
  | none => .ok none
  | some ln =>
    match select_loop cwd ln (os_path_realpath cwd ln) elements none with
    | none => .error ⟨"No config element matches; " ++ ln⟩
    | some e => .ok (some e)

/-- The last element of the list satisfying the predicate, scanning left
to right and keeping the most recent match.  Used to state the claimed
path-fallback rule of element selection. -/
def last_match (p : ConfigElement → Bool) : List ConfigElement → Option ConfigElement
  | [] => none
  | e :: es =>
    match last_match p es with
    | some x => some x
    | none => if p e then some e else none

/-- The claimed two-phase selection rule, written from the specification
text: first the first element whose `local_name` equals the query exactly;
only when no such element exists, the last element whose resolved real
path equals the query's resolved real path; otherwise an error. -/
def select_spec (cwd : String) (elements : List ConfigElement) (q : String) :
    Except MultiProjectException (Option ConfigElement) :=
  match elements.find? (fun e => q == e.local_name) with
  | some e => .ok (some e)
  | none =>
    match last_match (fun e => os_path_realpath cwd q == os_path_realpath cwd e.path) elements with
    | some e => .ok (some e)
    | none => .error ⟨"No config element matches; " ++ q⟩

/-- The backend-specific marker column width chosen by
`StatusRetriever.do_work`: `columns` starts at `-1` and is set to 3 for
git, 2 for hg and 4 for bzr; every other backend keeps `-1`. -/
def scm_columns (scmtype : Option String) : Int :=
  if scmtype == some "git" then 3
  else if scmtype == some "hg" then 2
  else if scmtype == some "bzr" then 4
  else -1

/-- Embeds Python `str.ljust(width)`: pads with spaces on the right up to
`width`, and leaves longer strings unchanged. -/
def ljust (width : Nat) (s : List Char) : List Char :=
  s ++ List.replicate (width - s.length) ' '

/-- Embeds Python `str.splitlines()` for texts whose only line boundary is
the newline character: the list of lines, without a phantom empty line
after a trailing newline. -/
def splitlines : List Char → List (List Char)
  | [] => []
  | '\n' :: cs => [] :: splitlines cs
  | c :: cs =>
    match splitlines cs with
    | [] => [[c]]
    | l :: ls => (c :: l) :: ls

/-- The status-normalization step of `StatusRetriever.do_work`: when the
backend has a known column width and the status is not `None`, each line
is rebuilt as `line[:columns].ljust(8) + line[columns:]` followed by a
newline, accumulated left to right; otherwise the status is returned
unchanged. -/
def align_status (scmtype : Option String) (status : Option (List Char)) :
    Option (List Char) :=
  let columns := scm_columns scmtype
  if columns > -1 then
    match status with
    | none => none
    | some s =>
      some ((splitlines s).foldl
        (fun acc line =>
          acc ++ (ljust 8 (line.take columns.toNat) ++ line.drop columns.toNat) ++ ['\n']) [])
  else status

/-- Embeds `StatusRetriever.do_work`: fetch the element's status at the
workspace path and normalize it per the element's scm type. -/
def status_retriever_do_work (element : ConfigElement) (path : String)
    (untracked : Bool) : Option (List Char) :=
  align_status element.scmtype (element.get_status path untracked)

/-- The claimed per-line rewrite, written from the specification text:
take the first `n` characters of the line, left-justify them to width 8,
and append the rest of the line unchanged. -/
def align_line_spec (n : Nat) (line : List Char) : List Char :=
  ljust 8 (line.take n) ++ line.drop n

/-- Concatenation of a list of lines, each transformed by `f` and
terminated by a newline. -/
def concat_lines (f : List Char → List Char) : List (List Char) → List Char
  | [] => []
  | l :: ls => f l ++ ['\n'] ++ concat_lines f ls

/-- The claimed normalized status text, written from the specification
text: every line of the status rewritten by `align_line_spec n`. -/
def align_status_spec (n : Nat) (s : List Char) : List Char :=
  concat_lines (align_line_spec n) (splitlines s)

/-- The elements of the configuration that receive a `StatusRetriever`
work unit in `cmd_status`: the selected element alone when a selection is
given, otherwise every element that is under version control. -/
def status_work_elements (cwd : String) (config : Config)
    (localname : Option String) : Except MultiProjectException (List ConfigElement) :=
  match _select_element cwd config.elements localname with
  | .error e => .error e
  | .ok (some e) => .ok [e]
  | .ok none => .ok (config.elements.filter (fun e => e.is_vcs_element))

/-- Embeds `cmd_status`: one `StatusRetriever` work unit per participating
element, results joined in submission order. -/
def cmd_status (cwd : String) (config : Config) (localname : Option String)
    (untracked : Bool) : Except MultiProjectException (List (Option (List Char))) :=
  match status_work_elements cwd config localname with
  | .error e => .error e
  | .ok els => .ok (els.map (fun e => status_retriever_do_work e config.base_path untracked))

/-- The elements of the configuration that receive a `DiffRetriever` work
unit in `cmd_diff`: the selected element alone when a selection is given,
otherwise every element that is under version control. -/
def diff_work_elements (cwd : String) (config : Config)
    (localname : Option String) : Except MultiProjectException (List ConfigElement) :=
  match _select_element cwd config.elements localname with
  | .error e => .error e
  | .ok (some e) => .ok [e]
  | .ok none => .ok (config.elements.filter (fun e => e.is_vcs_element))

/-- Embeds `cmd_diff`: one `DiffRetriever` work unit per participating
element, results joined in submission order. -/
def cmd_diff (cwd : String) (config : Config) (localname : Option String) :
    Except MultiProjectException (List (Option (List Char))) :=
  match diff_work_elements cwd config localname with
  | .error e => .error e
  | .ok els => .ok (els.map (fun e => e.get_diff config.base_path))

/-- Observable side effects of `cmd_install_or_update`, in program order:
the `os.mkdir` of the base path, each call of an element's
`prepare_install`, the console messages, and the start of an install work
unit inside the work distributor. -/
inductive Effect
  | mkdir (path : String)
  | prepare_call (local_name : String)
  | print_skip (local_name : String) (error : String)
  | print_continuing (fail_str : String)
  | install_start (local_name : String)
  | print_install_errors (msg : String)
deriving Repr, DecidableEq

/-- True exactly on `Effect.prepare_call` events. -/
def Effect.is_prepare_call : Effect → Bool
  | .prepare_call _ => true
  | _ => false

/-- True exactly on `Effect.install_start` events. -/
def Effect.is_install_start : Effect → Bool
  | .install_start _ => true
  | _ => false

/-- True exactly on `Effect.mkdir` events. -/
def Effect.is_mkdir : Effect → Bool
  | .mkdir _ => true
  | _ => false

/-- The absolute backup path computed inside the prepare loop:
`os.path.join(config.get_base_path(), backup_path)` when a backup path is
given, `None` otherwise. -/
def abs_backup (base : String) (backup_path : Option String) : Option String :=
  backup_path.map (fun p => os_path_join base p)

/-- True when the prepare step of `t` is a failure for the loop of
`cmd_install_or_update`: its `prepare_install` raises, or returns a report
with `abort` set. -/
def prepare_failure (abs_bp : Option String) (mode : String) (robust : Bool)
    (t : ConfigElement) : Bool :=
  match t.prepare_install abs_bp mode robust with
  | .error _ => true
  | .ok none => false
  | .ok (some r) => r.abort

/-- The report that the prepare step of `t` enqueues for the install
phase: only a non-aborting, non-skipping report is enqueued. -/
def enqueued_report (abs_bp : Option String) (mode : String) (robust : Bool)
    (t : ConfigElement) : Option PreparationReport :=
  match t.prepare_install abs_bp mode robust with
  | .ok (some r) => if r.abort then none else if r.skip then none else some r
  | _ => none

/-- One iteration of the prepare loop of `cmd_install_or_update` for
element `t`: the `try` body calls `prepare_install`, raises on an `abort`
report, prints and drops a `skip` report, and enqueues any other report;
the `except MultiProjectException` handler wraps the error and either
continues with `success = False` (robust) or re-raises (non-robust).
Returns the emitted effects and either the raised error or the pair of
the success contribution and the possibly enqueued report. -/
def prepare_step (base : String) (backup_path : Option String) (mode : String)
    (robust : Bool) (t : ConfigElement) :
    List Effect × Except MultiProjectException (Bool × Option PreparationReport) :=
  let handle : MultiProjectException →
      List Effect × Except MultiProjectException (Bool × Option PreparationReport) :=
    fun ex =>
      let fail_str := "Failed to install tree " ++ t.path ++ "\n " ++ ex.msg
      if robust then
        ([Effect.prepare_call t.local_name, Effect.print_continuing fail_str], .ok (false, none))
      else
        ([Effect.prepare_call t.local_name], .error ⟨fail_str⟩)
  match t.prepare_install (abs_backup base backup_path) mode robust with
  | .error ex => handle ex
  | .ok none => ([Effect.prepare_call t.local_name], .ok (true, none))
  | .ok (some report) =>
    if report.abort then handle ⟨"Aborting install because of " ++ report.error⟩
    else if report.skip then
      ([Effect.prepare_call t.local_name,
        Effect.print_skip report.config_element.local_name report.error], .ok (true, none))
    else ([Effect.prepare_call t.local_name], .ok (true, some report))

/-- The prepare loop of `cmd_install_or_update` over the configuration
elements in order: threads the success flag, accumulates the enqueued
preparation reports, and stops at the first raised error. -/
def prepare_loop (base : String) (backup_path : Option String) (mode : String)
    (robust : Bool) :
    List ConfigElement → List Effect × Except MultiProjectException (Bool × List PreparationReport)
  | [] => ([], .ok (true, []))
  | t :: ts =>
    let st := prepare_step base backup_path mode robust t
    match st.2 with
    | .error ex => (st.1, .error ex)
    | .ok (s, ro) =>
      let rest := prepare_loop base backup_path mode robust ts
      match rest.2 with
      | .error ex => (st.1 ++ rest.1, .error ex)
      | .ok (s2, rs) => (st.1 ++ rest.1, .ok (s && s2, ro.toList ++ rs))

/-- The `Installer.do_work` outcomes of the enqueued reports, in order:
each report's element is asked to `install(report.checkout, report.backup,
report.backup_path)`. -/
def install_units (reports : List PreparationReport) :
    List (Except MultiProjectException Unit) :=
  reports.map (fun r => r.config_element.install r.checkout r.backup r.backup_path)

/-- Modelled from the spec: `DistributedWork.run` (class in `common.py`,
absent from `src/`) executes every submitted unit, joins the results in
submission order, and, when some unit failed, re-raises the first observed
failure in submission order after all units have completed. -/
def distributed_work_run (units : List (Except MultiProjectException Unit)) :
    Except MultiProjectException (List Unit) :=
  match units.findSome? (fun u => match u with | .error e => some e | .ok _ => none) with
  | some e => .error e
  | none => .ok (units.map (fun _ => ()))

/-- Embeds `cmd_install_or_update(config, backup_path, mode, robust)`.
The extra `base_path_exists` argument makes the `os.path.exists` test on
the base path explicit.  Returns the trace of observable effects together
with the raised error or the boolean success. -/
def cmd_install_or_update (base_path_exists : Bool) (config : Config)
    (backup_path : Option String) (mode : String) (robust : Bool) :
    List Effect × Except MultiProjectException Bool :=
  let mkdir_effs := if base_path_exists then [] else [Effect.mkdir config.base_path]
  let prep := prepare_loop config.base_path backup_path mode robust config.elements
  match prep.2 with
  | .error ex => (mkdir_effs ++ prep.1, .error ex)
  | .ok (success, reports) =>
    let install_effs := reports.map (fun r => Effect.install_start r.config_element.local_name)
    match distributed_work_run (install_units reports) with
    | .ok _ => (mkdir_effs ++ prep.1 ++ install_effs, .ok success)
    | .error e =>
      if robust then
        (mkdir_effs ++ prep.1 ++ install_effs ++ [Effect.print_install_errors e.msg], .ok false)
      else
        (mkdir_effs ++ prep.1 ++ install_effs, .error e)

/-- The reports that survive the prepare phase under robust mode, used to
state when the install phase of a robust run fails. -/
def robust_reports (abs_bp : Option String) (mode : String)
    (elements : List ConfigElement) : List PreparationReport :=
  elements.filterMap (enqueued_report abs_bp mode true)

/-- An element declaration produced by configuration aggregation (a
`PathSpec` of `config_yaml.py`); its internal structure is irrelevant to
`get_config`. -/
structure PathSpec where
  spec_id : String
deriving Repr, DecidableEq

/-- The data handed by `get_config` to the `Config` constructor:
`Config(path_specs, basepath, config_filename)`. -/
structure RawConfig where
  path_specs : List PathSpec
  base_path : String
  config_filename : Option String
deriving Repr, DecidableEq

/-- A Python exception escaping `get_config`: either the module's own
`MultiProjectException`, or the crash (`AttributeError` in Python 2,
`TypeError` in Python 3) that `os.path.join` raises on a `None`
component while the message of the empty-aggregation raise is being
formatted. -/
inductive PyException
  | multi_project (e : MultiProjectException)
  | join_on_none (msg : String)
deriving Repr, DecidableEq

/-- Modelled from Python `os.path.join` applied to an optional second
component: a `None` second component does not yield a path, it crashes
inside `os.path.join`. -/
def os_path_join_py (a : String) (b : Option String) :
    Except PyException String :=
  match b with
  | none => .error (.join_on_none "NoneType is not a valid path component")
  | some s => .ok (os_path_join a s)

/-- The Python `repr` of a list of strings, as `%s` interpolates
`additional_uris` in the empty-aggregation error message. -/
def py_repr_str_list (us : List String) : String :=
  "[" ++ String.intercalate ", " (us.map (fun u => "\x27" ++ u ++ "\x27")) ++ "]"

/-- Embeds `get_config(basepath, additional_uris, config_filename)`.
`aggregate_from_uris` (defined in `config_yaml.py`, outside this module)
is passed in as the behaviour of the aggregation call; its errors are the
errors the source signals.  Mirrors the source checks: a missing basepath
raises, a missing uri list is defaulted from the config filename or
raises; an empty aggregated path-spec list raises the configuration
error whose message formats `os.path.join(basepath, config_filename)`
and the uri list, so a `None` config filename crashes there instead of
raising. -/
def get_config
    (aggregate_from_uris : List String → Option String → String →
      Except MultiProjectException (List PathSpec))
    (basepath : Option String) (additional_uris : Option (List String))
    (config_filename : Option String) : Except PyException RawConfig :=
  match basepath with
  | none => .error (.multi_project ⟨"Need to provide a basepath for Config."⟩)
  | some base =>
    let uris : Option (List String) :=
      match additional_uris, config_filename with
      | none, some fn => some [os_path_join base fn]
      | u, _ => u
    match uris with
    | none => .error (.multi_project ⟨"no source config file found!"⟩)
    | some us =>
      match aggregate_from_uris us config_filename base with
      | .error e => .error (.multi_project e)
      | .ok path_specs =>
        if path_specs.length = 0 then
          match os_path_join_py base config_filename with
          | .error crash => .error crash
          | .ok joined =>
            .error (.multi_project ⟨"no source config files found at " ++
              joined ++ " or " ++ py_repr_str_list us⟩)
        else .ok ⟨path_specs, base, config_filename⟩

/-- An aggregation behaviour that finds no declarations at all. -/
def agg_empty : List String → Option String → String →
    Except MultiProjectException (List PathSpec) :=
  fun _ _ _ => .ok []

/-- An aggregation behaviour whose source signals an error. -/
def agg_fail : List String → Option String → String →
    Except MultiProjectException (List PathSpec) :=
  fun _ _ _ => .error ⟨"source unreadable"⟩

/-- A concrete element whose prepare step succeeds with nothing to do. -/
def elem_ok : ConfigElement :=
  { local_name := "good", path := "/ws/good", is_vcs_element := true,
    scmtype := some "git",
    get_status := fun _ _ => none, get_diff := fun _ => none,
    prepare_install := fun _ _ _ => .ok none }

/-- A concrete element whose prepare step yields an aborting report. -/
def elem_abort : ConfigElement :=
  { local_name := "bad", path := "/ws/bad", is_vcs_element := true,
    scmtype := some "git",
    get_status := fun _ _ => none, get_diff := fun _ => none,
    prepare_install := fun _ _ _ =>
      .ok (some { config_element := ⟨"bad", fun _ _ _ => .ok ()⟩,
                  checkout := true, backup := false, backup_path := none,
                  abort := true, skip := false, error := "conflict" }) }

/-- A concrete element placed after the aborting one. -/
def elem_after : ConfigElement :=
  { local_name := "after", path := "/ws/after", is_vcs_element := true,
    scmtype := some "hg",
    get_status := fun _ _ => none, get_diff := fun _ => none,
    prepare_install := fun _ _ _ => .ok none }

/-- The report of the concrete skipping element. -/
def report_skip : PreparationReport :=
  { config_element := ⟨"skipper", fun _ _ _ => .ok ()⟩,
    checkout := false, backup := false, backup_path := none,
    abort := false, skip := true, error := "already present" }

/-- A concrete element whose prepare step yields a skip report. -/
def elem_skip : ConfigElement :=
  { local_name := "skipper", path := "/ws/skipper", is_vcs_element := true,
    scmtype := some "git",
    get_status := fun _ _ => none, get_diff := fun _ => none,
    prepare_install := fun _ _ _ => .ok (some report_skip) }

/-- A concrete element that is not under version control. -/
def elem_plain : ConfigElement :=
  { local_name := "plain", path := "/ws/plain", is_vcs_element := false,
    scmtype := none,
    get_status := fun _ _ => none, get_diff := fun _ => none,
    prepare_install := fun _ _ _ => .ok none }

/-- A concrete element at the absolute path `/a/q`. -/
def elem_cwd_a : ConfigElement :=
  { local_name := "n1", path := "/a/q", is_vcs_element := true,
    scmtype := some "git",
    get_status := fun _ _ => none, get_diff := fun _ => none,
    prepare_install := fun _ _ _ => .ok none }

/-- A concrete element at the absolute path `/b/q`. -/
def elem_cwd_b : ConfigElement :=
  { local_name := "n2", path := "/b/q", is_vcs_element := true,
    scmtype := some "git",
    get_status := fun _ _ => none, get_diff := fun _ => none,
    prepare_install := fun _ _ _ => .ok none }

lemma select_loop_spec (cwd ln rp : String) (es : List ConfigElement) :
    ∀ (cand : Option ConfigElement),
    select_loop cwd ln rp es cand =
      match es.find? (fun e => ln == e.local_name) with
      | some e => some e
      | none =>
        match last_match (fun e => rp == os_path_realpath cwd e.path) es with
        | some x => some x
        | none => cand := by
  induction es with
  | nil =>
    intro cand
    simp [select_loop, last_match]
  | cons e es ih =>
    intro cand
    cases h1 : (ln == e.local_name) with
    | true =>
      simp [select_loop, h1, List.find?_cons_of_pos]
    | false =>
      cases h2 : (rp == os_path_realpath cwd e.path) with
      | true =>
        rw [select_loop]
        simp only [h1, h2, Bool.false_eq_true, if_false, if_true]
        rw [ih (some e), List.find?_cons_of_neg _ (by simp [h1])]
        cases hf : es.find? (fun e => ln == e.local_name) with
        | some f => rfl
        | none =>
          simp only [last_match]
          cases hl : last_match (fun e => rp == os_path_realpath cwd e.path) es with
          | some x => rfl
          | none => simp [h2]
      | false =>
        rw [select_loop]
        simp only [h1, h2, Bool.false_eq_true, if_false]
        rw [ih cand, List.find?_cons_of_neg _ (by simp [h1])]
        cases hf : es.find? (fun e => ln == e.local_name) with
        | some f => rfl
        | none =>
          simp only [last_match]
          cases hl : last_match (fun e => rp == os_path_realpath cwd e.path) es with
          | some x => rfl
          | none => simp [h2]

/-- C3: for a present query, element selection returns the first element
in order whose `local_name` equals the query; only when no element's
`local_name` equals the query does it fall back to comparing resolved
real paths, returning the last element whose real path matches. -/
theorem select_element_first_local_then_last_path (cwd q : String)
    (elements : List ConfigElement) :
    _select_element cwd elements (some q) = select_spec cwd elements q := by
  simp only [_select_element, select_spec]
  rw [select_loop_spec]
  cases elements.find? (fun e => q == e.local_name) with
  | some e => rfl
  | none =>
    cases last_match (fun e => os_path_realpath cwd q == os_path_realpath cwd e.path) elements with
    | some x => rfl
    | none => rfl

lemma last_match_eq_none (p : ConfigElement → Bool) (l : List ConfigElement) :
    last_match p l = none ↔ ∀ e ∈ l, p e = false := by
  induction l with
  | nil => simp [last_match]
  | cons e es ih =>
    rw [last_match]
    cases hl : last_match p es with
    | some x =>
      simp only [iff_iff_implies_and_implies]
      constructor
      · intro h; exact absurd h (by simp)
      · intro h
        have : ∀ e' ∈ es, p e' = false := fun e' he' => h e' (List.mem_cons_of_mem _ he')
        rw [ih.mpr this] at hl
        exact absurd hl (by simp)
    | none =>
      cases hp : p e with
      | true =>
        simp only [if_true]
        constructor
        · intro h; exact absurd h (by simp)
        · intro h; exact absurd (h e (List.mem_cons_self e es)) (by simp [hp])
      | false =>
        simp only [Bool.false_eq_true, if_false, true_iff]
        intro e' he'
        rcases List.mem_cons.mp he' with rfl | hmem
        · exact hp
        · exact (ih.mp hl) e' hmem

/-- C4: element selection returns the no-narrowing sentinel whenever the
query is absent, and raises the selection error exactly when the query is
present and matches no element by `local_name` nor by resolved real
path. -/
theorem select_element_sentinel_and_error (cwd q : String)
    (elements : List ConfigElement) :
    _select_element cwd elements none = .ok none ∧
    (_select_element cwd elements (some q) =
        .error ⟨"No config element matches; " ++ q⟩ ↔
      ∀ e ∈ elements, (q == e.local_name) = false ∧
        (os_path_realpath cwd q == os_path_realpath cwd e.path) = false) := by
  refine ⟨rfl, ?_⟩
  simp only [_select_element]
  rw [select_loop_spec]
  cases hf : elements.find? (fun e => q == e.local_name) with
  | some f =>
    simp only [iff_iff_implies_and_implies]
    constructor
    · intro h; exact absurd h (by simp)
    · intro h
      have hpf := List.find?_some hf
      have hmem := List.mem_of_find?_eq_some hf
      rw [(h f hmem).1] at hpf
      exact absurd hpf (by simp)
  | none =>
    cases hl : last_match (fun e => os_path_realpath cwd q == os_path_realpath cwd e.path) elements with
    | some x =>
      simp only [iff_iff_implies_and_implies]
      constructor
      · intro h; exact absurd h (by simp)
      · intro h
        rw [(last_match_eq_none _ _).mpr (fun e he => (h e he).2)] at hl
        exact absurd hl (by simp)
    | none =>
      simp only [true_iff, iff_true_intro rfl, true_implies, true_and]
      intro e he
      refine ⟨?_, (last_match_eq_none _ _).mp hl e he⟩
      have := List.find?_eq_none.mp hf e he
      simpa using this

/-- C10: the path-match fallback of element selection resolves a relative
query against the current working directory of the process, so the same
query against the same elements selects different elements under
different working directories. -/
theorem select_element_depends_on_cwd :
    _select_element "/a" [elem_cwd_a, elem_cwd_b] (some "q") = .ok (some elem_cwd_a) ∧
    _select_element "/b" [elem_cwd_a, elem_cwd_b] (some "q") = .ok (some elem_cwd_b) ∧
    elem_cwd_a ≠ elem_cwd_b := by
  refine ⟨rfl, rfl, ?_⟩
  intro h
  exact absurd (congrArg ConfigElement.local_name h) (by decide)

lemma foldl_append_concat (f : List Char → List Char) (ls : List (List Char)) :
    ∀ (acc : List Char),
    ls.foldl (fun a l => a ++ f l ++ ['\n']) acc = acc ++ concat_lines f ls := by
  induction ls with
  | nil => intro acc; simp [concat_lines]
  | cons l ls ih =>
    intro acc
    rw [List.foldl_cons, ih (acc ++ f l ++ ['\n']), concat_lines]
    simp [List.append_assoc]

/-- C5: the status collector rewrites every line of a backend's status
text by taking its first N characters (3 for git, 2 for hg, 4 for bzr),
left-justifying them to width 8 and appending the rest of the line
unchanged; a backend with unknown column width and a `None` status are
passed through unmodified. -/
theorem status_alignment_per_line (scmtype : Option String)
    (status : Option (List Char)) :
    align_status scmtype status =
      match status with
      | none => none
      | some s =>
        if scmtype == some "git" then some (align_status_spec 3 s)
        else if scmtype == some "hg" then some (align_status_spec 2 s)
        else if scmtype == some "bzr" then some (align_status_spec 4 s)
        else some s := by
  have hfold : ∀ (n : Nat) (s : List Char),
      (splitlines s).foldl
        (fun acc line => acc ++ (ljust 8 (line.take n) ++ (line.drop n ++ ['\n']))) [] =
      align_status_spec n s := by
    intro n s
    have h2 : (fun (acc line : List Char) =>
          acc ++ (ljust 8 (line.take n) ++ (line.drop n ++ ['\n'])))
        = fun (acc line : List Char) => acc ++ align_line_spec n line ++ ['\n'] := by
      funext a l
      simp [align_line_spec, List.append_assoc]
    rw [h2, foldl_append_concat, align_status_spec]
    simp
  cases hgit : (scmtype == some "git") with
  | true =>
    simp only [align_status, scm_columns, hgit, if_true]
    cases status with
    | none => rfl
    | some s => simp [hfold 3 s, hgit]
  | false =>
    cases hhg : (scmtype == some "hg") with
    | true =>
      simp only [align_status, scm_columns, hgit, hhg, Bool.false_eq_true, if_false, if_true]
      cases status with
      | none => rfl
      | some s => simp [hfold 2 s, hgit, hhg]
    | false =>
      cases hbzr : (scmtype == some "bzr") with
      | true =>
        simp only [align_status, scm_columns, hgit, hhg, hbzr, Bool.false_eq_true,
          if_false, if_true]
        cases status with
        | none => rfl
        | some s => simp [hfold 4 s, hgit, hhg, hbzr]
      | false =>
        simp only [align_status, scm_columns, hgit, hhg, hbzr, Bool.false_eq_true, if_false]
        cases status with
        | none => simp
        | some s => simp [hgit, hhg, hbzr]

/-- C8: with no element selection, exactly the configuration elements
under version control receive a status/diff work unit; with an explicit
selection resolving to an element, that element alone receives a work
unit, with no version-control requirement. -/
theorem status_diff_work_unit_selection (cwd q : String) (config : Config)
    (e : ConfigElement)
    (hsel : _select_element cwd config.elements (some q) = .ok (some e)) :
    status_work_elements cwd config none =
        .ok (config.elements.filter (fun el => el.is_vcs_element)) ∧
    diff_work_elements cwd config none =
        .ok (config.elements.filter (fun el => el.is_vcs_element)) ∧
    status_work_elements cwd config (some q) = .ok [e] ∧
    diff_work_elements cwd config (some q) = .ok [e] := by
  refine ⟨rfl, rfl, ?_, ?_⟩
  · simp only [status_work_elements, hsel]
  · simp only [diff_work_elements, hsel]

/-- Witness for C8 at a concrete configuration: the explicitly selected
element receives the work unit although it is not under version control,
while an unselected run gives work units to the version-controlled
elements only. -/
theorem status_diff_work_unit_selection_witness :
    elem_plain.is_vcs_element = false ∧
    status_work_elements "/cwd" ⟨"/ws", [elem_ok, elem_plain]⟩ none = .ok [elem_ok] ∧
    diff_work_elements "/cwd" ⟨"/ws", [elem_ok, elem_plain]⟩ none = .ok [elem_ok] ∧
    status_work_elements "/cwd" ⟨"/ws", [elem_ok, elem_plain]⟩ (some "plain") = .ok [elem_plain] ∧
    diff_work_elements "/cwd" ⟨"/ws", [elem_ok, elem_plain]⟩ (some "plain") = .ok [elem_plain] := by
  have h := status_diff_work_unit_selection "/cwd" "plain"
    ⟨"/ws", [elem_ok, elem_plain]⟩ elem_plain rfl
  exact ⟨rfl, h.1, h.2.1, h.2.2.1, h.2.2.2⟩

lemma prepare_step_fail (base : String) (bp : Option String) (mode : String)
    (t : ConfigElement)
    (h : prepare_failure (abs_backup base bp) mode false t = true) :
    ∃ ex, prepare_step base bp mode false t =
      ([Effect.prepare_call t.local_name], .error ex) := by
  cases hres : t.prepare_install (abs_backup base bp) mode false with
  | error ex =>
    exact ⟨⟨"Failed to install tree " ++ t.path ++ "\n " ++ ex.msg⟩, by
      simp [prepare_step, hres]⟩
  | ok ro =>
    cases ro with
    | none =>
      simp [prepare_failure, hres] at h
    | some r =>
      simp only [prepare_failure, hres] at h
      refine ⟨⟨"Failed to install tree " ++ t.path ++ "\n " ++
        ("Aborting install because of " ++ r.error)⟩, ?_⟩
      simp [prepare_step, hres, h]

lemma prepare_step_ok (base : String) (bp : Option String) (mode : String)
    (robust : Bool) (t : ConfigElement)
    (h : prepare_failure (abs_backup base bp) mode robust t = false) :
    ∃ effs ro, prepare_step base bp mode robust t = (effs, .ok (true, ro)) ∧
      effs.filter Effect.is_prepare_call = [Effect.prepare_call t.local_name] := by
  cases hres : t.prepare_install (abs_backup base bp) mode robust with
  | error ex =>
    simp [prepare_failure, hres] at h
  | ok ro =>
    cases ro with
    | none =>
      refine ⟨[Effect.prepare_call t.local_name], none, ?_, ?_⟩
      · simp [prepare_step, hres]
      · simp [Effect.is_prepare_call]
    | some r =>
      simp only [prepare_failure, hres] at h
      cases hsk : r.skip with
      | true =>
        refine ⟨[Effect.prepare_call t.local_name,
          Effect.print_skip r.config_element.local_name r.error], none, ?_, ?_⟩
        · simp [prepare_step, hres, h, hsk]
        · simp [Effect.is_prepare_call]
      | false =>
        refine ⟨[Effect.prepare_call t.local_name], some r, ?_, ?_⟩
        · simp [prepare_step, hres, h, hsk]
        · simp [Effect.is_prepare_call]

lemma prepare_step_robust (base : String) (bp : Option String) (mode : String)
    (t : ConfigElement) :
    (prepare_step base bp mode true t).2 =
      .ok (!prepare_failure (abs_backup base bp) mode true t,
           enqueued_report (abs_backup base bp) mode true t) ∧
    (prepare_step base bp mode true t).1.filter Effect.is_prepare_call =
      [Effect.prepare_call t.local_name] := by
  cases hres : t.prepare_install (abs_backup base bp) mode true with
  | error ex =>
    constructor
    · simp [prepare_step, hres, prepare_failure, enqueued_report]
    · simp [prepare_step, hres, Effect.is_prepare_call]
  | ok ro =>
    cases ro with
    | none =>
      constructor
      · simp [prepare_step, hres, prepare_failure, enqueued_report]
      · simp [prepare_step, hres, Effect.is_prepare_call]
    | some r =>
      cases hab : r.abort with
      | true =>
        constructor
        · simp [prepare_step, hres, hab, prepare_failure, enqueued_report]
        · simp [prepare_step, hres, hab, Effect.is_prepare_call]
      | false =>
        cases hsk : r.skip with
        | true =>
          constructor
          · simp [prepare_step, hres, hab, hsk, prepare_failure, enqueued_report]
          · simp [prepare_step, hres, hab, hsk, Effect.is_prepare_call]
        | false =>
          constructor
          · simp [prepare_step, hres, hab, hsk, prepare_failure, enqueued_report]
          · simp [prepare_step, hres, hab, hsk, Effect.is_prepare_call]

lemma prepare_step_no_install_mkdir (base : String) (bp : Option String)
    (mode : String) (robust : Bool) (t : ConfigElement) :
    (prepare_step base bp mode robust t).1.filter Effect.is_install_start = [] ∧
    (prepare_step base bp mode robust t).1.filter Effect.is_mkdir = [] := by
  cases hres : t.prepare_install (abs_backup base bp) mode robust with
  | error ex =>
    cases robust <;>
      simp [prepare_step, hres, Effect.is_install_start, Effect.is_mkdir]
  | ok ro =>
    cases ro with
    | none =>
      simp [prepare_step, hres, Effect.is_install_start, Effect.is_mkdir]
    | some r =>
      cases hab : r.abort <;> cases hsk : r.skip <;> cases robust <;>
        simp [prepare_step, hres, hab, hsk, Effect.is_install_start, Effect.is_mkdir]

lemma prepare_loop_no_install_mkdir (base : String) (bp : Option String)
    (mode : String) (robust : Bool) (es : List ConfigElement) :
    (prepare_loop base bp mode robust es).1.filter Effect.is_install_start = [] ∧
    (prepare_loop base bp mode robust es).1.filter Effect.is_mkdir = [] := by
  induction es with
  | nil => simp [prepare_loop]
  | cons t ts ih =>
    have hstep := prepare_step_no_install_mkdir base bp mode robust t
    simp only [prepare_loop]
    cases hst : (prepare_step base bp mode robust t).2 with
    | error ex => simpa using hstep
    | ok p =>
      rcases p with ⟨s, ro⟩
      cases hl : (prepare_loop base bp mode robust ts).2 with
      | error ex =>
        simp [List.filter_append, hstep.1, hstep.2, ih.1, ih.2]
      | ok p2 =>
        rcases p2 with ⟨s2, rs⟩
        simp [List.filter_append, hstep.1, hstep.2, ih.1, ih.2]

lemma prepare_loop_nonrobust_fail (base : String) (bp : Option String) (mode : String)
    (l1 l2 : List ConfigElement) (t : ConfigElement)
    (h1 : ∀ u ∈ l1, prepare_failure (abs_backup base bp) mode false u = false)
    (ht : prepare_failure (abs_backup base bp) mode false t = true) :
    (∃ ex, (prepare_loop base bp mode false (l1 ++ t :: l2)).2 = .error ex) ∧
    (prepare_loop base bp mode false (l1 ++ t :: l2)).1.filter Effect.is_prepare_call
      = (l1 ++ [t]).map (fun u => Effect.prepare_call u.local_name) := by
  induction l1 with
  | nil =>
    obtain ⟨ex, hex⟩ := prepare_step_fail base bp mode t ht
    refine ⟨⟨ex, ?_⟩, ?_⟩ <;>
      simp [prepare_loop, hex, Effect.is_prepare_call]
  | cons u l1 ih =>
    have hu := h1 u (List.mem_cons_self u l1)
    obtain ⟨effs, ro, hstep, hfil⟩ :=
      prepare_step_ok base bp mode false u hu
    obtain ⟨⟨ex, hex⟩, hfil2⟩ := ih (fun v hv => h1 v (List.mem_cons_of_mem u hv))
    constructor
    · refine ⟨ex, ?_⟩
      simp [prepare_loop, hstep, hex]
    · simp [prepare_loop, hstep, hex, List.filter_append, hfil, hfil2]

lemma prepare_loop_robust_spec (base : String) (bp : Option String) (mode : String)
    (es : List ConfigElement) :
    (prepare_loop base bp mode true es).2 =
      .ok (es.all (fun t => !prepare_failure (abs_backup base bp) mode true t),
           robust_reports (abs_backup base bp) mode es) ∧
    (prepare_loop base bp mode true es).1.filter Effect.is_prepare_call =
      es.map (fun u => Effect.prepare_call u.local_name) := by
  induction es with
  | nil => simp [prepare_loop, robust_reports]
  | cons t ts ih =>
    have hstep := prepare_step_robust base bp mode t
    cases he : enqueued_report (abs_backup base bp) mode true t with
    | none =>
      constructor
      · simp [prepare_loop, hstep.1, ih.1, he, robust_reports, List.filterMap_cons]
      · simp [prepare_loop, hstep.1, ih.1, he, List.filter_append, hstep.2, ih.2]
    | some r =>
      constructor
      · simp [prepare_loop, hstep.1, ih.1, he, robust_reports, List.filterMap_cons]
      · simp [prepare_loop, hstep.1, ih.1, he, List.filter_append, hstep.2, ih.2]

lemma prepare_loop_skip_middle (base : String) (bp : Option String) (mode : String)
    (robust : Bool) (t : ConfigElement) (r : PreparationReport)
    (hprep : t.prepare_install (abs_backup base bp) mode robust = .ok (some r))
    (hskip : r.skip = true) (habort : r.abort = false) (l2 : List ConfigElement) :
    ∀ l1 : List ConfigElement,
    (prepare_loop base bp mode robust (l1 ++ t :: l2)).2 =
      (prepare_loop base bp mode robust (l1 ++ l2)).2 := by
  intro l1
  induction l1 with
  | nil =>
    have hstep : (prepare_step base bp mode robust t).2 = .ok (true, none) := by
      simp [prepare_step, hprep, hskip, habort]
    simp only [List.nil_append, prepare_loop]
    rw [hstep]
    cases hl : (prepare_loop base bp mode robust l2).2 with
    | error ex => rfl
    | ok p =>
      rcases p with ⟨s2, rs⟩
      simp
  | cons u l1 ih =>
    simp only [List.cons_append, prepare_loop]
    cases hst : (prepare_step base bp mode robust u).2 with
    | error ex => rfl
    | ok p =>
      rcases p with ⟨s, ro⟩
      simp only [List.append_eq]
      rw [ih]
      cases h2 : (prepare_loop base bp mode robust (l1 ++ l2)).2 with
      | error ex => rfl
      | ok p2 =>
        rcases p2 with ⟨s2, rs⟩
        rfl

lemma filter_pc_map_install (rs : List PreparationReport) :
    (rs.map (fun r => Effect.install_start r.config_element.local_name)).filter
      Effect.is_prepare_call = [] := by
  induction rs with
  | nil => rfl
  | cons r rs ih => simp [Effect.is_prepare_call, ih]

lemma not_mem_of_filter_mkdir_nil (l : List Effect)
    (h : l.filter Effect.is_mkdir = []) (p : String) :
    Effect.mkdir p ∉ l := by
  intro hm
  have hmem : Effect.mkdir p ∈ l.filter Effect.is_mkdir :=
    List.mem_filter.mpr ⟨hm, by simp [Effect.is_mkdir]⟩
  rw [h] at hmem
  exact absurd hmem (List.not_mem_nil _)

/-- C1: with `robust = false`, when some element's prepare step raises or
yields an aborting report and every earlier element's prepare step did
not, the command raises: elements after the failing one never have their
prepare step evaluated (the prepare-call trace stops at the failing
element) and no install work unit is ever started. -/
theorem cmd_install_nonrobust_aborts_immediately (fsb : Bool) (base : String)
    (bp : Option String) (mode : String) (l1 l2 : List ConfigElement)
    (t : ConfigElement)
    (h1 : ∀ u ∈ l1, prepare_failure (abs_backup base bp) mode false u = false)
    (ht : prepare_failure (abs_backup base bp) mode false t = true) :
    (∃ ex, (cmd_install_or_update fsb ⟨base, l1 ++ t :: l2⟩ bp mode false).2 =
      .error ex) ∧
    (cmd_install_or_update fsb ⟨base, l1 ++ t :: l2⟩ bp mode false).1.filter
        Effect.is_install_start = [] ∧
    (cmd_install_or_update fsb ⟨base, l1 ++ t :: l2⟩ bp mode false).1.filter
        Effect.is_prepare_call =
      (l1 ++ [t]).map (fun u => Effect.prepare_call u.local_name) := by
  obtain ⟨⟨ex, hex⟩, hfil⟩ := prepare_loop_nonrobust_fail base bp mode l1 l2 t h1 ht
  have hno := prepare_loop_no_install_mkdir base bp mode false (l1 ++ t :: l2)
  refine ⟨⟨ex, ?_⟩, ?_, ?_⟩
  · simp only [cmd_install_or_update]
    rw [hex]
  · simp only [cmd_install_or_update]
    rw [hex]
    cases fsb <;>
      simp [List.filter_append, hno.1, Effect.is_install_start]
  · simp only [cmd_install_or_update]
    rw [hex]
    cases fsb <;>
      simp [List.filter_append, hfil, Effect.is_prepare_call]

/-- C2: with `robust = true`, prepare-step failures (raised errors and
aborting reports) and install-phase failures reported by the work
distributor are not raised to the caller: every element's prepare step is
still evaluated and the command returns `false`. -/
theorem cmd_install_robust_continues (fsb : Bool) (base : String)
    (bp : Option String) (mode : String) (elements : List ConfigElement)
    (hFail : (∃ t ∈ elements,
        prepare_failure (abs_backup base bp) mode true t = true) ∨
      (∃ e, distributed_work_run
        (install_units (robust_reports (abs_backup base bp) mode elements)) =
          .error e)) :
    (cmd_install_or_update fsb ⟨base, elements⟩ bp mode true).2 = .ok false ∧
    (cmd_install_or_update fsb ⟨base, elements⟩ bp mode true).1.filter
        Effect.is_prepare_call =
      elements.map (fun u => Effect.prepare_call u.local_name) := by
  obtain ⟨hloop2, hloop1⟩ := prepare_loop_robust_spec base bp mode elements
  constructor
  · simp only [cmd_install_or_update]
    rw [hloop2]
    cases hr : distributed_work_run
        (install_units (robust_reports (abs_backup base bp) mode elements)) with
    | error e => simp [hr]
    | ok u =>
      rcases hFail with ⟨t, hmem, hfail⟩ | ⟨e, he⟩
      · cases hall : elements.all
            (fun v => !prepare_failure (abs_backup base bp) mode true v) with
        | false => simp [hr, hall]
        | true =>
          have := List.all_eq_true.mp hall t hmem
          rw [hfail] at this
          simp at this
      · rw [he] at hr
        exact absurd hr (by simp)
  · simp only [cmd_install_or_update]
    rw [hloop2]
    cases hr : distributed_work_run
        (install_units (robust_reports (abs_backup base bp) mode elements)) with
    | error e =>
      cases fsb <;>
        simp [hr, List.filter_append, hloop1, filter_pc_map_install, Effect.is_prepare_call]
    | ok u =>
      cases fsb <;>
        simp [hr, List.filter_append, hloop1, filter_pc_map_install, Effect.is_prepare_call]

/-- Witness for C1 at a concrete three-element configuration: the first
element prepares cleanly, the second aborts, and the raised error stops
the command with no third prepare call and no install start. -/
theorem cmd_install_nonrobust_aborts_immediately_witness :
    (∀ u ∈ [elem_ok], prepare_failure (abs_backup "/ws" none) "abort" false u = false) ∧
    prepare_failure (abs_backup "/ws" none) "abort" false elem_abort = true ∧
    ((∃ ex, (cmd_install_or_update false ⟨"/ws", [elem_ok] ++ elem_abort :: [elem_after]⟩
        none "abort" false).2 = .error ex) ∧
     (cmd_install_or_update false ⟨"/ws", [elem_ok] ++ elem_abort :: [elem_after]⟩
        none "abort" false).1.filter Effect.is_install_start = [] ∧
     (cmd_install_or_update false ⟨"/ws", [elem_ok] ++ elem_abort :: [elem_after]⟩
        none "abort" false).1.filter Effect.is_prepare_call =
       ([elem_ok] ++ [elem_abort]).map (fun u => Effect.prepare_call u.local_name)) :=
  ⟨by decide, by decide,
   cmd_install_nonrobust_aborts_immediately false "/ws" none "abort"
     [elem_ok] [elem_after] elem_abort (by decide) (by decide)⟩

/-- Witness for C2 at a concrete configuration whose first element's
prepare step aborts under robust mode: the command still returns `ok
false` and both elements' prepare steps run. -/
theorem cmd_install_robust_continues_witness :
    ((∃ t ∈ [elem_abort, elem_after],
        prepare_failure (abs_backup "/ws" none) "abort" true t = true) ∨
      (∃ e, distributed_work_run
        (install_units (robust_reports (abs_backup "/ws" none) "abort"
          [elem_abort, elem_after])) = .error e)) ∧
    ((cmd_install_or_update false ⟨"/ws", [elem_abort, elem_after]⟩
        none "abort" true).2 = .ok false ∧
     (cmd_install_or_update false ⟨"/ws", [elem_abort, elem_after]⟩
        none "abort" true).1.filter Effect.is_prepare_call =
       [elem_abort, elem_after].map (fun u => Effect.prepare_call u.local_name)) :=
  ⟨Or.inl ⟨elem_abort, List.mem_cons_self _ _, by decide⟩,
   cmd_install_robust_continues false "/ws" none "abort" [elem_abort, elem_after]
     (Or.inl ⟨elem_abort, List.mem_cons_self _ _, by decide⟩)⟩

/-- C7: an element whose preparation report has `skip = true` and
`abort = false` is excluded from the install phase only: removing it from
the configuration changes neither the command's outcome (raised error or
boolean success) nor the install work units that start. -/
theorem cmd_install_skip_excluded_only (fsb : Bool) (base : String)
    (bp : Option String) (mode : String) (robust : Bool)
    (l1 l2 : List ConfigElement) (t : ConfigElement) (r : PreparationReport)
    (hprep : t.prepare_install (abs_backup base bp) mode robust = .ok (some r))
    (hskip : r.skip = true) (habort : r.abort = false) :
    (cmd_install_or_update fsb ⟨base, l1 ++ t :: l2⟩ bp mode robust).2 =
      (cmd_install_or_update fsb ⟨base, l1 ++ l2⟩ bp mode robust).2 ∧
    (cmd_install_or_update fsb ⟨base, l1 ++ t :: l2⟩ bp mode robust).1.filter
        Effect.is_install_start =
      (cmd_install_or_update fsb ⟨base, l1 ++ l2⟩ bp mode robust).1.filter
        Effect.is_install_start := by
  have hl := prepare_loop_skip_middle base bp mode robust t r hprep hskip habort l2 l1
  have hnoA := prepare_loop_no_install_mkdir base bp mode robust (l1 ++ t :: l2)
  have hnoB := prepare_loop_no_install_mkdir base bp mode robust (l1 ++ l2)
  constructor
  · simp only [cmd_install_or_update]
    rw [hl]
    cases hv : (prepare_loop base bp mode robust (l1 ++ l2)).2 with
    | error ex => rfl
    | ok p =>
      rcases p with ⟨s, rs⟩
      dsimp only
      cases hr : distributed_work_run (install_units rs) with
      | ok u => rfl
      | error e => cases robust <;> rfl
  · simp only [cmd_install_or_update]
    rw [hl]
    cases hv : (prepare_loop base bp mode robust (l1 ++ l2)).2 with
    | error ex =>
      cases fsb <;>
        simp [List.filter_append, hnoA.1, hnoB.1, Effect.is_install_start]
    | ok p =>
      rcases p with ⟨s, rs⟩
      cases hr : distributed_work_run (install_units rs) with
      | ok u =>
        cases fsb <;>
          simp [hr, List.filter_append, hnoA.1, hnoB.1, Effect.is_install_start]
      | error e =>
        cases robust <;> cases fsb <;>
          simp [hr, List.filter_append, hnoA.1, hnoB.1, Effect.is_install_start]

/-- Witness for C7 at a concrete configuration with a skipping middle
element: the command's outcome and started install units equal those of
the configuration without that element. -/
theorem cmd_install_skip_excluded_only_witness :
    elem_skip.prepare_install (abs_backup "/ws" none) "abort" false =
      .ok (some report_skip) ∧
    report_skip.skip = true ∧
    report_skip.abort = false ∧
    ((cmd_install_or_update true ⟨"/ws", [elem_ok] ++ elem_skip :: [elem_after]⟩
        none "abort" false).2 =
      (cmd_install_or_update true ⟨"/ws", [elem_ok] ++ [elem_after]⟩
        none "abort" false).2 ∧
     (cmd_install_or_update true ⟨"/ws", [elem_ok] ++ elem_skip :: [elem_after]⟩
        none "abort" false).1.filter Effect.is_install_start =
      (cmd_install_or_update true ⟨"/ws", [elem_ok] ++ [elem_after]⟩
        none "abort" false).1.filter Effect.is_install_start) :=
  ⟨rfl, rfl, rfl,
   cmd_install_skip_excluded_only true "/ws" none "abort" false
     [elem_ok] [elem_after] elem_skip report_skip rfl rfl rfl⟩

/-- C9: on every invocation whose base path does not exist, the very
first effect of `cmd_install_or_update` is the single-level `os.mkdir` of
the base path, before any prepare call and whatever happens afterwards;
when the base path exists, no mkdir effect occurs at all. -/
theorem cmd_install_mkdir_base_path (base : String) (elements : List ConfigElement)
    (bp : Option String) (mode : String) (robust : Bool) :
    ((cmd_install_or_update false ⟨base, elements⟩ bp mode robust).1.head? =
      some (Effect.mkdir base)) ∧
    (∀ p, Effect.mkdir p ∉
      (cmd_install_or_update true ⟨base, elements⟩ bp mode robust).1) := by
  have hno := (prepare_loop_no_install_mkdir base bp mode robust elements).2
  constructor
  · simp only [cmd_install_or_update]
    cases hv : (prepare_loop base bp mode robust elements).2 with
    | error ex => simp
    | ok p =>
      rcases p with ⟨s, rs⟩
      cases hr : distributed_work_run (install_units rs) with
      | ok u => simp [hr]
      | error e => cases robust <;> simp [hr]
  · intro p
    have hmem := not_mem_of_filter_mkdir_nil _ hno p
    simp only [cmd_install_or_update]
    cases hv : (prepare_loop base bp mode robust elements).2 with
    | error ex => simpa using hmem
    | ok pr =>
      rcases pr with ⟨s, rs⟩
      dsimp only
      cases hr : distributed_work_run (install_units rs) with
      | ok u =>
        simp [hr, List.mem_append, List.mem_map, hmem]
      | error e =>
        cases robust <;>
          simp [hr, List.mem_append, List.mem_map, hmem]

/-- C6: evaluation of `get_config` at the failing input.  With aggregation
yielding zero declarations and `config_filename = None`, the command does
not raise the configuration error: it crashes inside the formatting of
that error's own message, where `os.path.join(basepath, None)` is
evaluated.  With a filename present the configuration error is raised as
claimed, and an error signaled by a source during aggregation propagates
to the caller unchanged. -/
theorem get_config_empty_crash_on_none_filename :
    get_config agg_empty (some "/ws") (some ["uri"]) none =
      .error (.join_on_none "NoneType is not a valid path component") ∧
    get_config agg_empty (some "/ws") (some ["uri"]) (some "cfg") =
      .error (.multi_project
        ⟨"no source config files found at /ws/cfg or [\x27uri\x27]"⟩) ∧
    get_config agg_fail (some "/ws") (some ["uri"]) none =
      .error (.multi_project ⟨"source unreadable"⟩) :=
  ⟨rfl, rfl, rfl⟩

/-- Witness for C4 at a concrete configuration: the absent query returns
the sentinel and a query matching nothing raises exactly the selection
error. -/
theorem select_element_sentinel_and_error_witness :
    _select_element "/cwd" [elem_ok] none = .ok none ∧
    (_select_element "/cwd" [elem_ok] (some "nomatch") =
        .error ⟨"No config element matches; " ++ "nomatch"⟩ ↔
      ∀ e ∈ [elem_ok], ("nomatch" == e.local_name) = false ∧
        (os_path_realpath "/cwd" "nomatch" == os_path_realpath "/cwd" e.path) = false) :=
  select_element_sentinel_and_error "/cwd" "nomatch" [elem_ok]

/-- Witness for C9 at a concrete configuration: with a missing base path
the first effect is the mkdir of the base path, and with an existing base
path no mkdir effect occurs. -/
theorem cmd_install_mkdir_base_path_witness :
    ((cmd_install_or_update false ⟨"/ws", [elem_ok]⟩ none "abort" false).1.head? =
      some (Effect.mkdir "/ws")) ∧
    Effect.mkdir "/ws" ∉
      (cmd_install_or_update true ⟨"/ws", [elem_ok]⟩ none "abort" false).1 :=
  ⟨(cmd_install_mkdir_base_path "/ws" [elem_ok] none "abort" false).1,
   (cmd_install_mkdir_base_path "/ws" [elem_ok] none "abort" false).2 "/ws"⟩

end Rosinstall
